import Mathlib

/-!
Verification of the browser-tabs MCP server core (`src/index.js`).

The JavaScript source is shallowly embedded: tabs, groups and snapshots
become Lean structures, each tool handler becomes a pure function from the
snapshot (plus arguments, and oracles for `Date.now()` / `Math.random()`)
to the textual reply together with the list of command bodies it appends
to the command queue, and `writeCommand` becomes an explicit append to a
list-valued sink.
-/

namespace TabsMcp

/-- JS `String.prototype.toLowerCase()` (per-character lowering). -/
def jsToLower (s : String) : String := ⟨s.data.map Char.toLower⟩

/-- Check that `pat` occurs at the very start of `s` (character lists). -/
def charsStartWith : List Char → List Char → Bool
  | [], _ => true
  | _ :: _, [] => false
  | p :: ps, c :: cs => p == c && charsStartWith ps cs

/-- Check that `pat` occurs somewhere inside `s` (character lists). -/
def charsContain (pat : List Char) : List Char → Bool
  | [] => charsStartWith pat []
  | c :: cs => charsStartWith pat (c :: cs) || charsContain pat cs

/-- JS `s.includes(pat)`: substring containment, case-sensitive. -/
def jsIncludes (s pat : String) : Bool := charsContain pat.data s.data

/-- One browser tab of a snapshot (`tabs-data.json` entry); the opaque
fields `mutedInfo` and `favIconUrl` are never read by the core and are
omitted. -/
structure Tab where
  id : Nat
  windowId : Nat
  index : Nat
  title : String
  url : String
  domain : String
  pinned : Bool
  active : Bool
  groupId : Int
  lastAccessed : Option Nat
  audible : Bool
  deriving DecidableEq, Repr

/-- One tab group of a snapshot. -/
structure TabGroup where
  id : Int
  title : Option String
  color : String
  collapsed : Bool
  windowId : Nat
  deriving DecidableEq, Repr

/-- The snapshot record loaded from `tabs-data.json`. -/
structure Snapshot where
  timestamp : Nat
  windowCount : Nat
  tabCount : Nat
  tabs : List Tab
  groups : List TabGroup
  deriving DecidableEq, Repr

/-- The 8-entry analysis catalog of `find_tabs_by_category`
(name, patterns), in source order. -/
def analysisCategories : List (String × List String) :=
  [("Development", ["github.com", "gitlab.com", "stackoverflow.com", "localhost", "npmjs.com", "docs.", "developer."]),
   ("Social", ["twitter.com", "x.com", "facebook.com", "linkedin.com", "instagram.com", "reddit.com", "discord.com"]),
   ("Communication", ["mail.google.com", "outlook.", "slack.com", "teams.microsoft.com", "zoom.us"]),
   ("Productivity", ["notion.so", "docs.google.com", "sheets.google.com", "drive.google.com", "trello.com", "asana.com", "jira."]),
   ("Shopping", ["amazon.", "ebay.", "etsy.com", "shop.", "store."]),
   ("Entertainment", ["youtube.com", "netflix.com", "spotify.com", "twitch.tv", "hulu.com"]),
   ("News", ["news.", "cnn.com", "bbc.", "nytimes.com", "theguardian.com", "hackernews", "ycombinator.com"]),
   ("AI Tools", ["claude.ai", "chat.openai.com", "chatgpt.com", "anthropic.com", "huggingface.co"])]

/-- The 14-entry auto-organize catalog of `auto_organize_tabs`
(name, color, patterns), in source order. -/
def autoCategories : List (String × String × List String) :=
  [("GitHub", "green", ["github.com", "gitlab.com", "bitbucket.org"]),
   ("Jira", "blue", ["atlassian.net/browse", "atlassian.net/jira", "atlassian.com"]),
   ("Confluence", "blue", ["atlassian.net/wiki"]),
   ("Docs", "purple", ["docs.", "/docs/", "documentation", "readme", "knip.dev", "nx.dev", "npmjs.com", "developer.", "devdocs.io", "mdn.", "w3schools"]),
   ("Local Dev", "yellow", ["localhost", "127.0.0.1", "0.0.0.0"]),
   ("AI Tools", "pink", ["claude.ai", "chat.openai.com", "chatgpt.com", "anthropic.com", "huggingface.co", "code.claude"]),
   ("Articles", "cyan", ["medium.com", "dev.to", "reddit.com", "hackernews", "news.ycombinator", "blog", "substack.com", "hashnode.", "freecodecamp"]),
   ("Metrics", "red", ["datadog", "grafana", "prometheus", "newrelic", "dora", "analytics", "sonarcloud", "sonarqube", "snyk.io", "backstage"]),
   ("Meetings", "orange", ["zoom.us", "meet.google", "teams.microsoft", "webex", "calendar"]),
   ("Support", "grey", ["service-now", "servicenow", "zendesk", "freshdesk", "support.", "helpdesk"]),
   ("Social", "pink", ["twitter.com", "x.com", "facebook.com", "linkedin.com", "instagram.com", "discord.com", "slack.com"]),
   ("Shopping", "orange", ["amazon.", "ebay.", "etsy.com", "apple.com/shop", "store.", "checkout", "cart"]),
   ("Entertainment", "red", ["youtube.com", "netflix.com", "spotify.com", "twitch.tv", "hulu.com", "disneyplus.com"]),
   ("Search", "grey", ["google.com/search", "bing.com/search", "duckduckgo.com"])]

/-- The per-category test of `find_tabs_by_category`:
`patterns.some(p => tab.domain.includes(p) || tab.url.includes(p))`. -/
def analysisMatch (pats : List String) (t : Tab) : Bool :=
  pats.any fun p => jsIncludes t.domain p || jsIncludes t.url p

/-- First matching analysis category of a tab (`for … break` over the
catalog); `none` means the tab is uncategorized. -/
def analysisClassify (t : Tab) : Option (String × List String) :=
  analysisCategories.find? fun c => analysisMatch c.2 t

/-- The per-category test of `auto_organize_tabs`:
`patterns.some(p => url.toLowerCase().includes(p.toLowerCase()) ||
domain.toLowerCase().includes(p.toLowerCase()))`. -/
def autoMatch (pats : List String) (t : Tab) : Bool :=
  pats.any fun p =>
    jsIncludes (jsToLower t.url) (jsToLower p) || jsIncludes (jsToLower t.domain) (jsToLower p)

/-- First matching auto-organize category of a tab. -/
def autoClassify (t : Tab) : Option (String × String × List String) :=
  autoCategories.find? fun c => autoMatch c.2.2 t

theorem find?_first_of_sat {α : Type} (p : α → Bool) (l : List α) (i : Nat)
    (hi : i < l.length) (hp : p (l.get ⟨i, hi⟩) = true) :
    ∃ k, ∃ hk : k < l.length, k ≤ i ∧ l.find? p = some (l.get ⟨k, hk⟩) := by
  induction l generalizing i with
  | nil => exact absurd hi (by simp)
  | cons a as ih =>
    cases hpa : p a with
    | true => exact ⟨0, by simp, Nat.zero_le _, by simp [hpa]⟩
    | false =>
      match i with
      | 0 =>
        have hpa' : p a = true := hp
        rw [hpa'] at hpa
        exact absurd hpa (by decide)
      | Nat.succ i' =>
        obtain ⟨k, hk, hki, hfind⟩ := ih i' (by simpa using hi) (by simpa using hp)
        exact ⟨k + 1, by simpa using hk, Nat.succ_le_succ hki, by simp [hpa, hfind]⟩

/-- C1: for each of the two catalogs, a tab whose domain or URL matches
patterns of two different categories is assigned by the classifier to a
category no later than the earlier of the two, and never to the later
one. -/
theorem claim1_first_match_wins (t : Tab) :
    (∀ i j (hi : i < analysisCategories.length) (hj : j < analysisCategories.length),
      i < j →
      analysisMatch (analysisCategories.get ⟨i, hi⟩).2 t = true →
      analysisMatch (analysisCategories.get ⟨j, hj⟩).2 t = true →
      ∃ k, ∃ hk : k < analysisCategories.length, k ≤ i ∧
        analysisClassify t = some (analysisCategories.get ⟨k, hk⟩) ∧
        analysisClassify t ≠ some (analysisCategories.get ⟨j, hj⟩)) ∧
    (∀ i j (hi : i < autoCategories.length) (hj : j < autoCategories.length),
      i < j →
      autoMatch (autoCategories.get ⟨i, hi⟩).2.2 t = true →
      autoMatch (autoCategories.get ⟨j, hj⟩).2.2 t = true →
      ∃ k, ∃ hk : k < autoCategories.length, k ≤ i ∧
        autoClassify t = some (autoCategories.get ⟨k, hk⟩) ∧
        autoClassify t ≠ some (autoCategories.get ⟨j, hj⟩)) := by
  constructor
  · intro i j hi hj hij hmi _hmj
    obtain ⟨k, hk, hki, hfind⟩ :=
      find?_first_of_sat (fun c => analysisMatch c.2 t) analysisCategories i hi hmi
    refine ⟨k, hk, hki, hfind, ?_⟩
    show List.find? (fun c => analysisMatch c.2 t) analysisCategories ≠ _
    rw [hfind]
    intro heq
    have hnd : analysisCategories.Nodup := by decide
    have := (List.Nodup.get_inj_iff hnd).mp (Option.some.inj heq)
    have : k = j := congrArg Fin.val this
    omega
  · intro i j hi hj hij hmi _hmj
    obtain ⟨k, hk, hki, hfind⟩ :=
      find?_first_of_sat (fun c => autoMatch c.2.2 t) autoCategories i hi hmi
    refine ⟨k, hk, hki, hfind, ?_⟩
    show List.find? (fun c => autoMatch c.2.2 t) autoCategories ≠ _
    rw [hfind]
    intro heq
    have hnd : autoCategories.Nodup := by decide
    have := (List.Nodup.get_inj_iff hnd).mp (Option.some.inj heq)
    have : k = j := congrArg Fin.val this
    omega

/-- A concrete tab whose domain matches the first category of each catalog
and whose URL also matches a later category of each catalog. -/
def tabW1 : Tab :=
  ⟨1, 1, 0, "w", "https://github.com/search?q=reddit.com", "github.com",
   false, false, -1, none, false⟩

theorem claim1_first_match_wins_witness :
    (∃ k, ∃ hk : k < analysisCategories.length, k ≤ 0 ∧
      analysisClassify tabW1 = some (analysisCategories.get ⟨k, hk⟩) ∧
      analysisClassify tabW1 ≠ some (analysisCategories.get ⟨1, by decide⟩)) ∧
    (∃ k, ∃ hk : k < autoCategories.length, k ≤ 0 ∧
      autoClassify tabW1 = some (autoCategories.get ⟨k, hk⟩) ∧
      autoClassify tabW1 ≠ some (autoCategories.get ⟨6, by decide⟩)) := by
  constructor
  · exact (claim1_first_match_wins tabW1).1 0 1 (by decide) (by decide) (by decide)
      (by decide) (by decide)
  · exact (claim1_first_match_wins tabW1).2 0 6 (by decide) (by decide) (by decide)
      (by decide) (by decide)

/-- A tab whose domain and URL are upper-case variants of github.com. -/
def tabC2 : Tab :=
  ⟨2, 1, 0, "c", "HTTPS://GITHUB.COM/A", "GITHUB.COM",
   false, false, -1, none, false⟩

/-- The lower-case twin of `tabC2`. -/
def tabC2low : Tab :=
  ⟨3, 1, 0, "c", "https://github.com/a", "github.com",
   false, false, -1, none, false⟩

/-- C2 counterexample: the lower-cased pattern "github.com" is a substring
of the lower-cased domain of `tabC2`, so under the claim
find_tabs_by_category would place the tab in its first category; the code
compares without lower-casing and leaves the tab uncategorized (while
auto_organize_tabs, which does lower-case, assigns it to GitHub). -/
theorem claim2_counterexample :
    jsIncludes (jsToLower tabC2.domain) (jsToLower "github.com") = true ∧
    analysisClassify tabC2 = none ∧
    autoClassify tabC2 = some ("GitHub", "green", ["github.com", "gitlab.com", "bitbucket.org"]) := by
  decide

/-- C2 (amended): pattern matching is case-insensitive in
auto_organize_tabs — tabs whose URL and domain agree up to letter case are
classified identically — whereas find_tabs_by_category compares the raw
domain and URL case-sensitively (see the counterexample). -/
theorem claim2_auto_case_insensitive (t t' : Tab)
    (hu : jsToLower t.url = jsToLower t'.url)
    (hd : jsToLower t.domain = jsToLower t'.domain) :
    autoClassify t = autoClassify t' := by
  unfold autoClassify
  congr 1
  funext c
  unfold autoMatch
  rw [hu, hd]

theorem claim2_auto_case_insensitive_witness :
    autoClassify tabC2 = autoClassify tabC2low :=
  claim2_auto_case_insensitive tabC2 tabC2low (by decide) (by decide)

/-- One `{tabId, windowId, index}` entry of a shuffle command. -/
structure Move where
  tabId : Nat
  windowId : Nat
  index : Nat
  deriving DecidableEq, Repr

/-- The action-specific part of a queued command, one constructor per
`action` value written by the source. -/
inductive CommandBody where
  | closeTabs (tabIds : List Nat) (description : String)
  | createGroup (tabIds : List Nat) (groupName : String) (color : String) (description : String)
  | focusTab (tabId : Nat) (windowId : Nat) (description : String)
  | ungroupTabs (tabIds : List Nat) (description : String)
  | shuffleMoves (moves : List Move) (description : String)
  deriving DecidableEq, Repr

/-- The duplicate scan of close_duplicate_tabs (and of auto_organize_tabs
with closeDuplicates): `urlMap` keeps the first tab per URL, every later
tab with an already-seen URL contributes its id. `seen` is the set of URL
keys of `urlMap`. -/
def dupIdsAux : List Tab → List String → List Nat
  | [], _ => []
  | t :: ts, seen =>
    if t.url ∈ seen then t.id :: dupIdsAux ts seen
    else dupIdsAux ts (t.url :: seen)

/-- The `duplicateIds` list computed over a snapshot's tabs. -/
def closeDupIds (tabs : List Tab) : List Nat := dupIdsAux tabs []

/-- Handler of the close_duplicate_tabs tool: reply text and appended
command bodies. -/
def closeDuplicateTabsTool (tabs : List Tab) : String × List CommandBody :=
  let duplicateIds := closeDupIds tabs
  if duplicateIds.length = 0 then ("No duplicate tabs found!", [])
  else
    ("Queued " ++ toString duplicateIds.length ++
       " duplicate tabs for closing.\n\nClick \"Execute Commands\" in the browser extension to apply.",
     [CommandBody.closeTabs duplicateIds
       ("Close " ++ toString duplicateIds.length ++ " duplicate tabs")])

theorem dupIdsAux_subset_ids {x : Nat} :
    ∀ (ts : List Tab) (seen : List String), x ∈ dupIdsAux ts seen → x ∈ ts.map Tab.id := by
  intro ts
  induction ts with
  | nil => intro seen h; simp [dupIdsAux] at h
  | cons t ts ih =>
    intro seen h
    by_cases hs : t.url ∈ seen
    · simp only [dupIdsAux, if_pos hs, List.mem_cons] at h
      rcases h with h | h
      · simp [h]
      · simpa using Or.inr (ih seen h)
    · simp only [dupIdsAux, if_neg hs] at h
      simpa using Or.inr (ih (t.url :: seen) h)

theorem mem_dupIdsAux (ts : List Tab) (seen : List String)
    (hnd : (ts.map Tab.id).Nodup) (i : Nat) (hi : i < ts.length) :
    (ts.get ⟨i, hi⟩).id ∈ dupIdsAux ts seen ↔
      (ts.get ⟨i, hi⟩).url ∈ seen ∨
        ∃ j, ∃ hj : j < i, (ts.get ⟨j, Nat.lt_trans hj hi⟩).url = (ts.get ⟨i, hi⟩).url := by
  induction ts generalizing seen i with
  | nil => exact absurd hi (by simp)
  | cons t ts ih =>
    have hnd' : (ts.map Tab.id).Nodup := (List.nodup_cons.mp hnd).2
    have htid : t.id ∉ ts.map Tab.id := (List.nodup_cons.mp hnd).1
    match i with
    | 0 =>
      by_cases hs : t.url ∈ seen
      · constructor
        · intro _
          exact Or.inl hs
        · intro _
          show t.id ∈ dupIdsAux (t :: ts) seen
          simp [dupIdsAux, hs]
      · constructor
        · intro h
          have h' : t.id ∈ dupIdsAux ts (t.url :: seen) := by
            simpa [dupIdsAux, hs] using h
          exact absurd (dupIdsAux_subset_ids ts (t.url :: seen) h') htid
        · rintro (h | ⟨j, hj, _⟩)
          · exact absurd h hs
          · omega
    | Nat.succ i' =>
      have hi' : i' < ts.length := by simpa using hi
      have hne : (ts.get ⟨i', hi'⟩).id ≠ t.id := by
        intro h
        exact htid (h ▸ List.mem_map.mpr
          ⟨ts.get ⟨i', hi'⟩, List.mem_iff_get.mpr ⟨⟨i', hi'⟩, rfl⟩, rfl⟩)
      by_cases hs : t.url ∈ seen
      · have hred : dupIdsAux (t :: ts) seen = t.id :: dupIdsAux ts seen := by
          simp [dupIdsAux, hs]
        rw [hred]
        constructor
        · intro h
          rcases List.mem_cons.mp h with h | h
          · exact absurd h hne
          · rcases (ih seen hnd' i' hi').mp h with h' | ⟨j, hj, hurl⟩
            · exact Or.inl h'
            · exact Or.inr ⟨j + 1, Nat.succ_lt_succ hj, hurl⟩
        · intro h
          refine List.mem_cons.mpr (Or.inr ((ih seen hnd' i' hi').mpr ?_))
          rcases h with h' | ⟨j, hj, hurl⟩
          · exact Or.inl h'
          · by_cases hj0 : j = 0
            · subst hj0
              have h0 : t.url = (ts.get ⟨i', hi'⟩).url := hurl
              exact Or.inl (h0 ▸ hs)
            · obtain ⟨j', rfl⟩ : ∃ m, j = m + 1 := ⟨j - 1, by omega⟩
              have hj' : j' < i' := by omega
              exact Or.inr ⟨j', hj', hurl⟩
      · have hred : dupIdsAux (t :: ts) seen = dupIdsAux ts (t.url :: seen) := by
          simp [dupIdsAux, hs]
        rw [hred]
        constructor
        · intro h
          rcases (ih (t.url :: seen) hnd' i' hi').mp h with h' | ⟨j, hj, hurl⟩
          · rcases List.mem_cons.mp h' with h0 | h0
            · exact Or.inr ⟨0, Nat.succ_pos _, h0.symm⟩
            · exact Or.inl h0
          · exact Or.inr ⟨j + 1, Nat.succ_lt_succ hj, hurl⟩
        · intro h
          refine (ih (t.url :: seen) hnd' i' hi').mpr ?_
          rcases h with h' | ⟨j, hj, hurl⟩
          · exact Or.inl (List.mem_cons.mpr (Or.inr h'))
          · by_cases hj0 : j = 0
            · subst hj0
              have h0 : t.url = (ts.get ⟨i', hi'⟩).url := hurl
              exact Or.inl (List.mem_cons.mpr (Or.inl h0.symm))
            · obtain ⟨j', rfl⟩ : ∃ m, j = m + 1 := ⟨j - 1, by omega⟩
              have hj' : j' < i' := by omega
              exact Or.inr ⟨j', hj', hurl⟩

theorem card_insert_eq_card_erase_add_one (u : String) (X : Finset String) :
    (insert u X).card = (X.erase u).card + 1 := by
  by_cases h : u ∈ X
  · rw [Finset.insert_eq_self.mpr h, Finset.card_erase_add_one h]
  · rw [Finset.card_insert_of_not_mem h, Finset.erase_eq_of_not_mem h]

theorem sdiff_step (u : String) (S T : Finset String) (hu : u ∉ T) :
    ((insert u S) \ T).card = (S \ insert u T).card + 1 := by
  have h1 : (insert u S) \ T = insert u (S \ T) := by
    ext x
    simp only [Finset.mem_sdiff, Finset.mem_insert]
    constructor
    · rintro ⟨h | h, hx⟩
      · exact Or.inl h
      · exact Or.inr ⟨h, hx⟩
    · rintro (h | ⟨h, hx⟩)
      · exact ⟨Or.inl h, h ▸ hu⟩
      · exact ⟨Or.inr h, hx⟩
  have h2 : S \ insert u T = (S \ T).erase u := by
    ext x
    simp only [Finset.mem_sdiff, Finset.mem_insert, Finset.mem_erase]
    constructor
    · rintro ⟨hx, h⟩
      push_neg at h
      exact ⟨h.1, hx, h.2⟩
    · rintro ⟨hne, hx, hnt⟩
      refine ⟨hx, ?_⟩
      push_neg
      exact ⟨hne, hnt⟩
  rw [h1, h2, card_insert_eq_card_erase_add_one]

theorem dupIdsAux_length (ts : List Tab) (seen : List String) :
    (dupIdsAux ts seen).length + ((ts.map Tab.url).toFinset \ seen.toFinset).card = ts.length := by
  induction ts generalizing seen with
  | nil => simp [dupIdsAux]
  | cons t ts ih =>
    by_cases hs : t.url ∈ seen
    · have hcard : ((Tab.url t :: ts.map Tab.url).toFinset \ seen.toFinset).card =
          ((ts.map Tab.url).toFinset \ seen.toFinset).card := by
        congr 1
        rw [List.toFinset_cons]
        exact Finset.insert_sdiff_of_mem _ (List.mem_toFinset.mpr hs)
      simp only [dupIdsAux, if_pos hs, List.length_cons, List.map_cons, hcard]
      have := ih seen
      omega
    · have hcard : ((Tab.url t :: ts.map Tab.url).toFinset \ seen.toFinset).card =
          ((ts.map Tab.url).toFinset \ (t.url :: seen).toFinset).card + 1 := by
        rw [List.toFinset_cons, List.toFinset_cons]
        exact sdiff_step t.url _ _ (by simpa using hs)
      simp only [dupIdsAux, if_neg hs, List.length_cons, List.map_cons, hcard]
      have := ih (t.url :: seen)
      omega

theorem dupIdsAux_eq_nil_iff (ts : List Tab) (seen : List String) :
    dupIdsAux ts seen = [] ↔
      (ts.map Tab.url).Nodup ∧ ∀ u ∈ ts.map Tab.url, u ∉ seen := by
  induction ts generalizing seen with
  | nil => simp [dupIdsAux]
  | cons t ts ih =>
    by_cases hs : t.url ∈ seen
    · simp only [dupIdsAux, if_pos hs, List.map_cons]
      constructor
      · intro h; exact absurd h (by simp)
      · rintro ⟨_, h⟩
        exact absurd hs (h t.url (by simp))
    · simp only [dupIdsAux, if_neg hs, List.map_cons, ih, List.nodup_cons]
      constructor
      · rintro ⟨hnd, h⟩
        refine ⟨⟨fun hmem => ?_, hnd⟩, ?_⟩
        · exact (h t.url hmem) (by simp)
        · intro u hu
          rcases List.mem_cons.mp hu with h0 | h0
          · exact h0 ▸ hs
          · intro hu'
            exact (h u h0) (by simp [hu'])
      · rintro ⟨⟨hmem, hnd⟩, h⟩
        refine ⟨hnd, fun u hu => ?_⟩
        intro hu'
        rcases List.mem_cons.mp hu' with h0 | h0
        · exact hmem (h0 ▸ hu)
        · exact (h u (by simp [hu])) h0

theorem closeDupIds_eq_nil_iff (tabs : List Tab) :
    closeDupIds tabs = [] ↔ (tabs.map Tab.url).Nodup := by
  unfold closeDupIds
  rw [dupIdsAux_eq_nil_iff]
  simp

/-- C3: close_duplicate_tabs marks a tab exactly when an earlier tab of the
snapshot has the same URL; the marked list has size total − distinct URLs;
when a duplicate exists exactly one close command with that id list is
emitted, and with all URLs distinct no command is emitted. -/
theorem claim3_close_duplicates (tabs : List Tab) (hnd : (tabs.map Tab.id).Nodup) :
    (∀ i (hi : i < tabs.length),
      (tabs.get ⟨i, hi⟩).id ∈ closeDupIds tabs ↔
        ∃ j, ∃ hj : j < i, (tabs.get ⟨j, Nat.lt_trans hj hi⟩).url = (tabs.get ⟨i, hi⟩).url) ∧
    (closeDupIds tabs).length + (tabs.map Tab.url).toFinset.card = tabs.length ∧
    (¬ (tabs.map Tab.url).Nodup →
      (closeDuplicateTabsTool tabs).2 =
        [CommandBody.closeTabs (closeDupIds tabs)
          ("Close " ++ toString (closeDupIds tabs).length ++ " duplicate tabs")]) ∧
    ((tabs.map Tab.url).Nodup → (closeDuplicateTabsTool tabs).2 = []) := by
  refine ⟨?_, ?_, ?_, ?_⟩
  · intro i hi
    rw [closeDupIds, mem_dupIdsAux tabs [] hnd i hi]
    simp
  · have := dupIdsAux_length tabs []
    simpa [closeDupIds] using this
  · intro h
    have hne : closeDupIds tabs ≠ [] := fun hnil => h ((closeDupIds_eq_nil_iff tabs).mp hnil)
    have hlen : (closeDupIds tabs).length ≠ 0 := by
      simpa [List.length_eq_zero] using hne
    simp [closeDuplicateTabsTool, hlen]
  · intro h
    have hnil : closeDupIds tabs = [] := (closeDupIds_eq_nil_iff tabs).mpr h
    simp [closeDuplicateTabsTool, hnil]

/-- Three tabs, the second a duplicate of the first. -/
def tabsC3 : List Tab :=
  [⟨1, 1, 0, "a", "https://x.test/", "x.test", false, false, -1, none, false⟩,
   ⟨2, 1, 1, "b", "https://x.test/", "x.test", false, false, -1, none, false⟩,
   ⟨3, 1, 2, "c", "https://y.test/", "y.test", false, false, -1, none, false⟩]

theorem claim3_close_duplicates_witness :
    (closeDupIds tabsC3).length + (tabsC3.map Tab.url).toFinset.card = tabsC3.length ∧
    (closeDuplicateTabsTool tabsC3).2 =
      [CommandBody.closeTabs (closeDupIds tabsC3)
        ("Close " ++ toString (closeDupIds tabsC3).length ++ " duplicate tabs")] := by
  have h := claim3_close_duplicates tabsC3 (by decide)
  exact ⟨h.2.1, h.2.2.1 (by decide)⟩

/-- JS `s.startsWith(pat)`. -/
def jsStartsWith (s pat : String) : Bool := charsStartWith pat.data s.data

/-- The `formatAge` helper: renders `now − timestamp` as an age string
(floor divisions as in `Math.floor`). -/
def formatAge (now ts : Nat) : String :=
  let diff : Int := (now : Int) - (ts : Int)
  let minutes := Int.fdiv diff 60000
  if minutes < 1 then "just now"
  else if minutes < 60 then toString minutes ++ "m ago"
  else
    let hours := Int.fdiv minutes 60
    if hours < 24 then toString hours ++ "h ago"
    else toString (Int.fdiv hours 24) ++ "d ago"

/-- Deduplication in first-occurrence order (JS `[...new Set(xs)]`). -/
def dedupFirstAux : List String → List String → List String
  | [], _ => []
  | x :: xs, seen => if x ∈ seen then dedupFirstAux xs seen else x :: dedupFirstAux xs (x :: seen)

/-- JS `[...new Set(xs)]`. -/
def dedupFirst (l : List String) : List String := dedupFirstAux l []

/-- The filter `t => t.groupId && t.groupId !== -1` used by get_tab_stats
and ungroup_all_tabs; `t.groupId &&` is JS truthiness, so a group id of 0
fails the filter. -/
def groupedTabs (tabs : List Tab) : List Tab :=
  tabs.filter fun t => decide (t.groupId ≠ 0) && decide (t.groupId ≠ -1)

/-- The `In groups` count of get_tab_stats. -/
def groupedCount (tabs : List Tab) : Nat := (groupedTabs tabs).length

/-- The `get_tab_stats` reply text. -/
def getTabStatsTool (snap : Snapshot) (now : Nat) : String × List CommandBody :=
  let domains := dedupFirst (snap.tabs.map Tab.domain)
  let pinnedCount := (snap.tabs.filter Tab.pinned).length
  let audibleCount := (snap.tabs.filter Tab.audible).length
  ("Tab Statistics (data from " ++ formatAge now snap.timestamp ++ "):\n- Total tabs: " ++
     toString snap.tabCount ++ "\n- Windows: " ++ toString snap.windowCount ++
     "\n- Unique domains: " ++ toString domains.length ++
     "\n- Pinned tabs: " ++ toString pinnedCount ++
     "\n- Playing audio: " ++ toString audibleCount ++
     "\n- In groups: " ++ toString (groupedCount snap.tabs) ++
     "\n- Tab groups: " ++ toString snap.groups.length, [])

/-- The display name of the group a tab belongs to
(`group ? group.title || 'Unnamed' : 'Unknown'`). -/
def groupNameFor (groups : List TabGroup) (t : Tab) : String :=
  match groups.find? fun g => decide (g.id = t.groupId) with
  | some g =>
    match g.title with
    | some ti => if ti = "" then "Unnamed" else ti
    | none => "Unnamed"
  | none => "Unknown"

/-- Handler of the ungroup_all_tabs tool. -/
def ungroupAllTabsTool (tabs : List Tab) (groups : List TabGroup) : String × List CommandBody :=
  let gts := groupedTabs tabs
  if gts.length = 0 then ("No tabs are currently in groups.", [])
  else
    let groupNames := dedupFirst (gts.map (groupNameFor groups))
    ("Queued " ++ toString gts.length ++ " tabs to be ungrouped from " ++
       toString groupNames.length ++ " groups:\n- " ++ String.intercalate "\n- " groupNames ++
       "\n\nEmpty groups will be automatically removed.\n\nClick \"Execute Commands\" in the browser extension to apply.",
     [CommandBody.ungroupTabs (gts.map Tab.id)
       ("Ungroup " ++ toString gts.length ++ " tabs from " ++ toString groupNames.length ++ " groups")])

/-- A tab whose group id is the falsy value 0. -/
def tabC10 : Tab :=
  ⟨7, 1, 0, "g", "https://z.test/", "z.test", false, false, 0, none, false⟩

/-- C10 counterexample: the claim says every tab with a group id other
than −1 — including 0 — is counted by get_tab_stats and selected by
ungroup_all_tabs; a tab with group id 0 fails the JS-truthiness filter, is
not counted, and ungroup_all_tabs emits nothing for it. -/
theorem claim10_counterexample :
    tabC10.groupId ≠ -1 ∧
    groupedCount [tabC10] = 0 ∧
    ([tabC10].filter fun t => decide (t.groupId ≠ -1)).length = 1 ∧
    ungroupAllTabsTool [tabC10] [] = ("No tabs are currently in groups.", []) := by
  decide

/-- C10 (amended): the in-groups count and the ungroup_all_tabs target
comprise exactly the tabs whose group id is neither 0 (JS-falsy) nor −1;
on a non-empty target a single ungroup command with all those tab ids is
emitted. -/
theorem claim10_grouped_filter (tabs : List Tab) (groups : List TabGroup) :
    groupedCount tabs = (tabs.filter fun t => decide (t.groupId ≠ 0 ∧ t.groupId ≠ -1)).length ∧
    groupedTabs tabs = tabs.filter (fun t => decide (t.groupId ≠ 0 ∧ t.groupId ≠ -1)) ∧
    (groupedTabs tabs ≠ [] →
      ∃ d, (ungroupAllTabsTool tabs groups).2 =
        [CommandBody.ungroupTabs ((groupedTabs tabs).map Tab.id) d]) := by
  have hfilter : groupedTabs tabs = tabs.filter (fun t => decide (t.groupId ≠ 0 ∧ t.groupId ≠ -1)) := by
    unfold groupedTabs
    apply List.filter_congr
    intro t _
    by_cases h0 : t.groupId = 0 <;> by_cases h1 : t.groupId = -1 <;> simp [h0, h1]
  refine ⟨by rw [groupedCount, hfilter], hfilter, ?_⟩
  intro hne
  have hlen : (groupedTabs tabs).length ≠ 0 := by
    simpa [List.length_eq_zero] using hne
  refine ⟨"Ungroup " ++ toString (groupedTabs tabs).length ++ " tabs from " ++
    toString (dedupFirst ((groupedTabs tabs).map (groupNameFor groups))).length ++ " groups", ?_⟩
  simp [ungroupAllTabsTool, hlen]

/-- A tab in an ordinary (positive-id) group. -/
def tabC10b : Tab :=
  ⟨8, 1, 0, "h", "https://z.test/", "z.test", false, false, 5, none, false⟩

theorem claim10_grouped_filter_witness :
    ∃ d, (ungroupAllTabsTool [tabC10b] []).2 =
      [CommandBody.ungroupTabs ((groupedTabs [tabC10b]).map Tab.id) d] :=
  (claim10_grouped_filter [tabC10b] []).2.2 (by decide)

/-- Eligibility test of auto_organize_tabs (and shuffle_tabs): not pinned
and not an internal chrome:// or chrome-extension:// page. -/
def eligibleAuto (t : Tab) : Bool :=
  !(t.pinned || jsStartsWith t.url "chrome://" || jsStartsWith t.url "chrome-extension://")

/-- Insert a tab into the keyed bucket map `categorizedTabs`, preserving
JS object insertion order: an existing key keeps its place (and color) and
the tab is appended, a new key is appended at the end. -/
def bucketPush (name color : String) (t : Tab) :
    List (String × String × List Tab) → List (String × String × List Tab)
  | [] => [(name, color, [t])]
  | b :: rest =>
    if b.1 = name then (b.1, b.2.1, b.2.2 ++ [t]) :: rest
    else b :: bucketPush name color t rest

/-- One iteration of the tab-assignment loop of auto_organize_tabs. -/
def categorizeStep (acc : List (String × String × List Tab)) (t : Tab) :
    List (String × String × List Tab) :=
  if eligibleAuto t then
    match autoClassify t with
    | some c => bucketPush c.1 c.2.1 t acc
    | none => bucketPush "Other" "grey" t acc
  else acc

/-- The `categorizedTabs` map after the assignment loop. -/
def categorizeTabs (tabs : List Tab) : List (String × String × List Tab) :=
  tabs.foldl categorizeStep []

/-- The `duplicateIds` computed by auto_organize_tabs (only when the
closeDuplicates flag is set). -/
def autoDupIds (tabs : List Tab) (closeDuplicates : Bool) : List Nat :=
  if closeDuplicates then closeDupIds tabs else []

/-- The `tabsToProcess` list: tabs minus marked duplicates when the flag
is set. -/
def autoTabsToProcess (tabs : List Tab) (closeDuplicates : Bool) : List Tab :=
  if closeDuplicates then
    tabs.filter fun t => !((autoDupIds tabs closeDuplicates).contains t.id)
  else tabs

/-- The category buckets built by one auto_organize_tabs call. -/
def autoBuckets (tabs : List Tab) (closeDuplicates : Bool) : List (String × String × List Tab) :=
  categorizeTabs (autoTabsToProcess tabs closeDuplicates)

/-- The `groupCommands` list of auto_organize_tabs. -/
def autoGroupCommands (tabs : List Tab) (closeDuplicates : Bool) : List CommandBody :=
  ((autoBuckets tabs closeDuplicates).filter fun b => 0 < b.2.2.length).map fun b =>
    CommandBody.createGroup (b.2.2.map Tab.id) b.1 b.2.1
      ("Group " ++ toString b.2.2.length ++ " tabs as \"" ++ b.1 ++ "\"")

/-- The close command queued first by auto_organize_tabs when requested
and duplicates exist. -/
def autoCloseCommands (tabs : List Tab) (closeDuplicates : Bool) : List CommandBody :=
  if closeDuplicates ∧ 0 < (autoDupIds tabs closeDuplicates).length then
    [CommandBody.closeTabs (autoDupIds tabs closeDuplicates)
      ("Close " ++ toString (autoDupIds tabs closeDuplicates).length ++ " duplicate tabs")]
  else []

/-- Handler of the auto_organize_tabs tool. Note that in the source the
close command is written to the queue before the `groupCommands.length
=== 0` early return, so it is emitted even on the "No tabs to organize"
path. -/
def autoOrganizeTool (tabs : List Tab) (closeDuplicates : Bool) : String × List CommandBody :=
  let duplicateIds := autoDupIds tabs closeDuplicates
  let groupCommands := autoGroupCommands tabs closeDuplicates
  let cmds := autoCloseCommands tabs closeDuplicates ++ groupCommands
  if groupCommands.length = 0 then
    ("No tabs to organize (all tabs are pinned or extension pages).", cmds)
  else
    ("Queued auto-organization:\n" ++
       (if closeDuplicates ∧ 0 < duplicateIds.length then
          "- Close " ++ toString duplicateIds.length ++ " duplicates\n" else "") ++
       "- Create " ++ toString groupCommands.length ++ " tab groups:\n  " ++
       String.intercalate "\n  "
         (((autoBuckets tabs closeDuplicates).filter fun b => 0 < b.2.2.length).map fun b =>
           b.1 ++ ": " ++ toString b.2.2.length ++ " tabs") ++
       "\n\nClick \"Execute Commands\" in the browser extension to apply.", cmds)

theorem autoOrganizeTool_snd (tabs : List Tab) (flag : Bool) :
    (autoOrganizeTool tabs flag).2 =
      autoCloseCommands tabs flag ++ autoGroupCommands tabs flag := by
  by_cases h : (autoGroupCommands tabs flag).length = 0 <;> simp [autoOrganizeTool, h]

theorem mem_bucketPush (name color : String) (t t' : Tab) :
    ∀ (acc : List (String × String × List Tab)) b, b ∈ bucketPush name color t acc →
      t' ∈ b.2.2 → (∃ b' ∈ acc, t' ∈ b'.2.2) ∨ t' = t := by
  intro acc
  induction acc with
  | nil =>
    intro b hb ht'
    simp only [bucketPush, List.mem_singleton] at hb
    subst hb
    simp only [List.mem_singleton] at ht'
    exact Or.inr ht'
  | cons b0 rest ih =>
    intro b hb ht'
    by_cases heq : b0.1 = name
    · simp only [bucketPush, if_pos heq, List.mem_cons] at hb
      rcases hb with hb | hb
      · subst hb
        rcases List.mem_append.mp ht' with h | h
        · exact Or.inl ⟨b0, List.mem_cons_self _ _, h⟩
        · exact Or.inr (List.mem_singleton.mp h)
      · exact Or.inl ⟨b, List.mem_cons_of_mem _ hb, ht'⟩
    · simp only [bucketPush, if_neg heq, List.mem_cons] at hb
      rcases hb with hb | hb
      · subst hb
        exact Or.inl ⟨b, List.mem_cons_self _ _, ht'⟩
      · rcases ih b hb ht' with ⟨b', hb', htb'⟩ | h
        · exact Or.inl ⟨b', List.mem_cons_of_mem _ hb', htb'⟩
        · exact Or.inr h

theorem mem_categorize_foldl (t' : Tab) :
    ∀ (tabs : List Tab) (acc : List (String × String × List Tab)) b,
      b ∈ tabs.foldl categorizeStep acc → t' ∈ b.2.2 →
      (∃ b' ∈ acc, t' ∈ b'.2.2) ∨ (t' ∈ tabs ∧ eligibleAuto t' = true) := by
  intro tabs
  induction tabs with
  | nil =>
    intro acc b hb ht'
    exact Or.inl ⟨b, hb, ht'⟩
  | cons t ts ih =>
    intro acc b hb ht'
    rcases ih (categorizeStep acc t) b hb ht' with ⟨b', hb', htb'⟩ | ⟨hmem, helig⟩
    · unfold categorizeStep at hb'
      by_cases helig : eligibleAuto t
      · rw [if_pos helig] at hb'
        have hpush : ∀ n c, b' ∈ bucketPush n c t acc → t' ∈ b'.2.2 →
            (∃ b'' ∈ acc, t' ∈ b''.2.2) ∨ (t' ∈ t :: ts ∧ eligibleAuto t' = true) := by
          intro n c hbp htp
          rcases mem_bucketPush n c t t' acc b' hbp htp with ⟨b'', hb'', h⟩ | h
          · exact Or.inl ⟨b'', hb'', h⟩
          · subst h
            exact Or.inr ⟨List.mem_cons_self _ _, helig⟩
        cases hcl : autoClassify t with
        | some c =>
          rw [hcl] at hb'
          exact hpush c.1 c.2.1 hb' htb'
        | none =>
          rw [hcl] at hb'
          exact hpush "Other" "grey" hb' htb'
      · rw [if_neg helig] at hb'
        exact Or.inl ⟨b', hb', htb'⟩
    · exact Or.inr ⟨List.mem_cons_of_mem _ hmem, helig⟩

theorem autoTabsToProcess_sub (tabs : List Tab) (flag : Bool) {t : Tab}
    (h : t ∈ autoTabsToProcess tabs flag) : t ∈ tabs := by
  unfold autoTabsToProcess at h
  by_cases hf : flag = true
  · rw [if_pos hf] at h
    exact List.mem_of_mem_filter h
  · rw [if_neg hf] at h
    exact h

theorem mem_autoBuckets (tabs : List Tab) (flag : Bool) (b : String × String × List Tab)
    (hb : b ∈ autoBuckets tabs flag) (t' : Tab) (ht' : t' ∈ b.2.2) :
    t' ∈ tabs ∧ eligibleAuto t' = true := by
  rcases mem_categorize_foldl t' (autoTabsToProcess tabs flag) [] b hb ht' with ⟨_, h, _⟩ | ⟨h, he⟩
  · exact absurd h (by simp)
  · exact ⟨autoTabsToProcess_sub tabs flag h, he⟩

/-- Two same-URL tabs, the duplicate one pinned. -/
def tabC4a : Tab :=
  ⟨1, 1, 0, "a", "https://a.test/", "a.test", false, false, -1, none, false⟩

def tabC4p : Tab :=
  ⟨2, 1, 1, "b", "https://a.test/", "a.test", true, false, -1, none, false⟩

def tabsC4 : List Tab := [tabC4a, tabC4p]

/-- C4 counterexample: with closeDuplicates set, the pinned duplicate tab
(id 2) is placed in the emitted close command, although the claim says a
pinned tab enters no emitted command. -/
theorem claim4_counterexample :
    tabC4p.pinned = true ∧ tabC4p.id = 2 ∧
    (autoOrganizeTool tabsC4 true).2 =
      [CommandBody.closeTabs [2] "Close 1 duplicate tabs",
       CommandBody.createGroup [1] "Other" "grey" "Group 1 tabs as \"Other\""] := by
  refine ⟨rfl, rfl, ?_⟩
  decide

/-- C4 (amended): auto_organize_tabs never places a pinned or
internal-scheme tab into a category bucket or a create-group command; the
close-duplicates command, however, is computed over all tabs and can
contain such tabs (see the counterexample). -/
theorem claim4_no_pinned_in_groups (tabs : List Tab) (flag : Bool) (t : Tab)
    (ht : t ∈ tabs) (hbad : eligibleAuto t = false)
    (hnd : (tabs.map Tab.id).Nodup) :
    ∀ c ∈ (autoOrganizeTool tabs flag).2,
      ∀ ids gn col d, c = CommandBody.createGroup ids gn col d → t.id ∉ ids := by
  intro c hc ids gn col d hceq hmem
  rw [autoOrganizeTool_snd] at hc
  rcases List.mem_append.mp hc with hc | hc
  · unfold autoCloseCommands at hc
    split at hc
    · rcases List.mem_singleton.mp hc with rfl
      cases hceq
    · simp at hc
  · unfold autoGroupCommands at hc
    rcases List.mem_map.mp hc with ⟨b, hb, hbc⟩
    have hb' : b ∈ autoBuckets tabs flag := List.mem_of_mem_filter hb
    rw [hceq] at hbc
    have hids : ids = b.2.2.map Tab.id := by
      cases hbc
      rfl
    rw [hids] at hmem
    rcases List.mem_map.mp hmem with ⟨t', ht', hid⟩
    have hmm := mem_autoBuckets tabs flag b hb' t' ht'
    have : t' = t :=
      List.inj_on_of_nodup_map hnd hmm.1 ht hid
    rw [this] at hmm
    rw [hmm.2] at hbad
    cases hbad

theorem claim4_no_pinned_in_groups_witness : (2 : Nat) ∉ [(1 : Nat)] :=
  claim4_no_pinned_in_groups tabsC4 true tabC4p (by decide) (by decide) (by decide)
    (CommandBody.createGroup [1] "Other" "grey" "Group 1 tabs as \"Other\"") (by decide)
    [1] "Other" "grey" "Group 1 tabs as \"Other\"" rfl

/-- A Social-catalog tab followed by a GitHub-catalog tab. -/
def tabsC5 : List Tab :=
  [⟨1, 1, 0, "s", "https://twitter.com/a", "twitter.com", false, false, -1, none, false⟩,
   ⟨2, 1, 1, "g", "https://github.com/b", "github.com", false, false, -1, none, false⟩]

/-- C5 counterexample: the Social group command is emitted before the
GitHub one, matching first-assignment order, although GitHub comes before
Social in the catalog. -/
theorem claim5_counterexample :
    (autoOrganizeTool tabsC5 false).2 =
      [CommandBody.createGroup [1] "Social" "pink" "Group 1 tabs as \"Social\"",
       CommandBody.createGroup [2] "GitHub" "green" "Group 1 tabs as \"GitHub\""] ∧
    autoCategories.findIdx (fun c => decide (c.1 = "GitHub")) <
      autoCategories.findIdx (fun c => decide (c.1 = "Social")) := by
  constructor
  · decide
  · decide

theorem bucketPush_names (name color : String) (t : Tab) :
    ∀ acc : List (String × String × List Tab),
      (bucketPush name color t acc).map (fun b => b.1) =
        if name ∈ acc.map (fun b => b.1) then acc.map (fun b => b.1)
        else acc.map (fun b => b.1) ++ [name] := by
  intro acc
  induction acc with
  | nil => simp [bucketPush]
  | cons b0 rest ih =>
    by_cases heq : b0.1 = name
    · simp [bucketPush, heq]
    · have hmem : (name ∈ b0.1 :: rest.map fun b => b.1) ↔ (name ∈ rest.map fun b => b.1) := by
        simp only [List.mem_cons]
        constructor
        · rintro (h | h)
          · exact absurd h.symm heq
          · exact h
        · exact Or.inr
      simp only [bucketPush, if_neg heq, List.map_cons, ih]
      by_cases hm : name ∈ rest.map fun b => b.1
      · rw [if_pos hm, if_pos (hmem.mpr hm)]
      · rw [if_neg hm, if_neg (fun h => hm (hmem.mp h))]
        rfl

theorem bucketPush_names_nodup (name color : String) (t : Tab)
    (acc : List (String × String × List Tab))
    (h : (acc.map fun b => b.1).Nodup) :
    ((bucketPush name color t acc).map fun b => b.1).Nodup := by
  rw [bucketPush_names]
  by_cases hm : name ∈ acc.map fun b => b.1
  · rw [if_pos hm]; exact h
  · rw [if_neg hm]
    simp [List.nodup_append, h, hm]

theorem categorize_foldl_names_nodup :
    ∀ (tabs : List Tab) (acc : List (String × String × List Tab)),
      (acc.map fun b => b.1).Nodup →
      ((tabs.foldl categorizeStep acc).map fun b => b.1).Nodup := by
  intro tabs
  induction tabs with
  | nil => intro acc h; exact h
  | cons t ts ih =>
    intro acc h
    refine ih (categorizeStep acc t) ?_
    unfold categorizeStep
    by_cases helig : eligibleAuto t
    · rw [if_pos helig]
      cases autoClassify t with
      | some c => exact bucketPush_names_nodup c.1 c.2.1 t acc h
      | none => exact bucketPush_names_nodup "Other" "grey" t acc h
    · rw [if_neg helig]
      exact h

theorem bucketPush_nonempty (name color : String) (t : Tab) :
    ∀ acc : List (String × String × List Tab),
      (∀ b ∈ acc, b.2.2 ≠ []) → ∀ b ∈ bucketPush name color t acc, b.2.2 ≠ [] := by
  intro acc
  induction acc with
  | nil =>
    intro _ b hb
    simp only [bucketPush, List.mem_singleton] at hb
    subst hb
    simp
  | cons b0 rest ih =>
    intro h b hb
    by_cases heq : b0.1 = name
    · simp only [bucketPush, if_pos heq, List.mem_cons] at hb
      rcases hb with hb | hb
      · subst hb; simp
      · exact h b (List.mem_cons_of_mem _ hb)
    · simp only [bucketPush, if_neg heq, List.mem_cons] at hb
      rcases hb with hb | hb
      · rw [hb]; exact h b0 (List.mem_cons_self _ _)
      · exact ih (fun b' hb' => h b' (List.mem_cons_of_mem _ hb')) b hb

theorem categorize_foldl_nonempty :
    ∀ (tabs : List Tab) (acc : List (String × String × List Tab)),
      (∀ b ∈ acc, b.2.2 ≠ []) → ∀ b ∈ tabs.foldl categorizeStep acc, b.2.2 ≠ [] := by
  intro tabs
  induction tabs with
  | nil => intro acc h; exact h
  | cons t ts ih =>
    intro acc h
    refine ih (categorizeStep acc t) ?_
    unfold categorizeStep
    by_cases helig : eligibleAuto t
    · rw [if_pos helig]
      cases autoClassify t with
      | some c => exact bucketPush_nonempty c.1 c.2.1 t acc h
      | none => exact bucketPush_nonempty "Other" "grey" t acc h
    · rw [if_neg helig]
      exact h

/-- C5 (amended): auto_organize_tabs emits exactly one create-group
command per non-empty bucket — bucket names are pairwise distinct and
every bucket is non-empty, so the filter is the identity — in
first-assignment order (the order in which categories first receive a tab
in snapshot order), not the catalog order; the close command, when
emitted, precedes all group commands. -/
theorem claim5_group_commands (tabs : List Tab) (flag : Bool) :
    (autoOrganizeTool tabs flag).2 =
      autoCloseCommands tabs flag ++ autoGroupCommands tabs flag ∧
    ((autoBuckets tabs flag).map fun b => b.1).Nodup ∧
    (∀ b ∈ autoBuckets tabs flag, b.2.2 ≠ []) ∧
    autoGroupCommands tabs flag = (autoBuckets tabs flag).map fun b =>
      CommandBody.createGroup (b.2.2.map Tab.id) b.1 b.2.1
        ("Group " ++ toString b.2.2.length ++ " tabs as \"" ++ b.1 ++ "\"") := by
  have hnonempty : ∀ b ∈ autoBuckets tabs flag, b.2.2 ≠ [] :=
    categorize_foldl_nonempty (autoTabsToProcess tabs flag) [] (by simp)
  refine ⟨autoOrganizeTool_snd tabs flag, ?_, hnonempty, ?_⟩
  · exact categorize_foldl_names_nodup (autoTabsToProcess tabs flag) [] (by simp)
  · unfold autoGroupCommands
    congr 1
    apply List.filter_eq_self.mpr
    intro b hb
    have := hnonempty b hb
    simpa [Nat.pos_iff_ne_zero, List.length_eq_zero] using this

/-- One record of `commands.json`: the body spread together with the
`Date.now()` stamp as id and status "pending". -/
structure QueuedCommand where
  body : CommandBody
  id : Nat
  status : String
  deriving DecidableEq, Repr

/-- `writeCommand`: read the queue (a missing file reads as empty — the
caller passes the current queue), push the stamped record, write back. -/
def writeCommand (now : Nat) (sink : List QueuedCommand) (body : CommandBody) :
    List QueuedCommand :=
  sink ++ [⟨body, now, "pending"⟩]

/-- Queue a run of command bodies; the k-th write reads the clock at tick
`start + k` (each `writeCommand` calls `Date.now()` afresh). -/
def enqueueAll (clock : Nat → Nat) (start : Nat) (sink : List QueuedCommand) :
    List CommandBody → List QueuedCommand
  | [] => sink
  | b :: bs => enqueueAll clock (start + 1) (writeCommand (clock start) sink b) bs

/-- The records a run of `enqueueAll` appends after the existing queue. -/
def enqueueRecs (clock : Nat → Nat) (start : Nat) : List CommandBody → List QueuedCommand
  | [] => []
  | b :: bs => ⟨b, clock start, "pending"⟩ :: enqueueRecs clock (start + 1) bs

theorem enqueueAll_eq (clock : Nat → Nat) :
    ∀ (bodies : List CommandBody) (start : Nat) (sink : List QueuedCommand),
      enqueueAll clock start sink bodies = sink ++ enqueueRecs clock start bodies := by
  intro bodies
  induction bodies with
  | nil => intro start sink; simp [enqueueAll, enqueueRecs]
  | cons b bs ih =>
    intro start sink
    rw [enqueueAll, enqueueRecs, ih, writeCommand]
    simp

/-- C9 counterexample: two commands queued within one auto_organize_tabs
call while `Date.now()` stays on the same millisecond receive equal,
non-unique identifiers. -/
theorem claim9_counterexample :
    (enqueueAll (fun _ => 1700000000000) 0 [] (autoOrganizeTool tabsC5 false).2).map
        QueuedCommand.id = [1700000000000, 1700000000000] ∧
    ¬ ((enqueueAll (fun _ => 1700000000000) 0 [] (autoOrganizeTool tabsC5 false).2).map
        QueuedCommand.id).Nodup := by
  constructor
  · decide
  · decide

/-- C9 (amended): every record appended to the command sink carries
status "pending" and an identifier equal to the clock reading at its
write; the sink is append-only (previously queued records are preserved
as a prefix); identifiers are non-decreasing whenever the clock is
non-decreasing, but are not unique when the clock repeats within one
call (see the counterexample). -/
theorem claim9_sink (clock : Nat → Nat) (start : Nat) (sink : List QueuedCommand)
    (bodies : List CommandBody) :
    enqueueAll clock start sink bodies = sink ++ enqueueRecs clock start bodies ∧
    (enqueueRecs clock start bodies).map QueuedCommand.status = bodies.map (fun _ => "pending") ∧
    (enqueueRecs clock start bodies).map QueuedCommand.body = bodies ∧
    (enqueueRecs clock start bodies).map QueuedCommand.id =
      (List.range bodies.length).map (fun k => clock (start + k)) ∧
    ((∀ a b, a ≤ b → clock a ≤ clock b) →
      List.Chain' (· ≤ ·) ((enqueueRecs clock start bodies).map QueuedCommand.id)) := by
  refine ⟨enqueueAll_eq clock bodies start sink, ?_, ?_, ?_, ?_⟩
  · induction bodies generalizing start with
    | nil => simp [enqueueRecs]
    | cons b bs ih => simp [enqueueRecs, ih]
  · induction bodies generalizing start with
    | nil => simp [enqueueRecs]
    | cons b bs ih => simp [enqueueRecs, ih]
  · induction bodies generalizing start with
    | nil => simp [enqueueRecs]
    | cons b bs ih =>
      simp only [enqueueRecs, List.map_cons, List.length_cons, List.range_succ_eq_map,
        List.map_map]
      refine congrArg (clock start :: ·) ?_
      rw [ih (start + 1)]
      apply List.map_congr_left
      intro k _
      simp only [Function.comp]
      congr 1
      omega
  · intro hmono
    induction bodies generalizing start with
    | nil => simp [enqueueRecs]
    | cons b bs ih =>
      cases bs with
      | nil => simp [enqueueRecs]
      | cons b' bs' =>
        refine List.Chain'.cons ?_ (ih (start + 1))
        exact hmono start (start + 1) (by omega)

theorem claim9_sink_witness :
    List.Chain' (· ≤ ·) ((enqueueRecs (fun k => k) 0
      [CommandBody.closeTabs [1] "d", CommandBody.closeTabs [2] "e"]).map QueuedCommand.id) :=
  (claim9_sink (fun k => k) 0 []
    [CommandBody.closeTabs [1] "d", CommandBody.closeTabs [2] "e"]).2.2.2.2
    (fun _ _ h => h)

/-- The in-place swap `[arr[i], arr[j]] = [arr[j], arr[i]]` on a list. -/
def lswap (l : List Tab) (i j : Nat) : List Tab :=
  match l[i]?, l[j]? with
  | some x, some y => (l.set i y).set j x
  | _, _ => l

theorem set_get_self : ∀ (l : List Tab) (i : Nat) (x : Tab), l[i]? = some x → l.set i x = l := by
  intro l
  induction l with
  | nil => intro i x h; simp at h
  | cons a as ih =>
    intro i x h
    cases i with
    | zero =>
      have : a = x := by simpa using h
      simp [this]
    | succ n =>
      have h' : as[n]? = some x := by simpa using h
      simpa using ih n x h'

theorem cons_set_perm (x y : Tab) :
    ∀ (as : List Tab) (m : Nat), as[m]? = some y → (y :: as.set m x).Perm (x :: as) := by
  intro as
  induction as with
  | nil => intro m h; simp at h
  | cons b bs ih =>
    intro m h
    cases m with
    | zero =>
      have : b = y := by simpa using h
      subst this
      exact List.Perm.swap x b (bs)
    | succ n =>
      have h' : bs[n]? = some y := by simpa using h
      have step1 : (y :: b :: bs.set n x).Perm (b :: y :: bs.set n x) := List.Perm.swap b y _
      have step2 : (b :: y :: bs.set n x).Perm (b :: x :: bs) := (ih n h').cons b
      have step3 : (b :: x :: bs).Perm (x :: b :: bs) := List.Perm.swap x b bs
      exact step1.trans (step2.trans step3)

theorem set_set_perm :
    ∀ (l : List Tab) (i j : Nat) (x y : Tab), i < j → l[i]? = some x → l[j]? = some y →
      ((l.set i y).set j x).Perm l := by
  intro l
  induction l with
  | nil => intro i j x y hij hx hy; simp at hx
  | cons a as ih =>
    intro i j x y hij hx hy
    cases i with
    | zero =>
      cases j with
      | zero => omega
      | succ m =>
        have hax : a = x := by simpa using hx
        have hy' : as[m]? = some y := by simpa using hy
        subst hax
        exact cons_set_perm a y as m hy'
    | succ k =>
      cases j with
      | zero => omega
      | succ m =>
        have hx' : as[k]? = some x := by simpa using hx
        have hy' : as[m]? = some y := by simpa using hy
        exact (ih k m x y (by omega) hx' hy').cons a

theorem lswap_perm (l : List Tab) (i j : Nat) : (lswap l i j).Perm l := by
  unfold lswap
  cases hx : l[i]? with
  | none => exact List.Perm.refl l
  | some x =>
    cases hy : l[j]? with
    | none => exact List.Perm.refl l
    | some y =>
      rcases Nat.lt_trichotomy i j with h | h | h
      · exact set_set_perm l i j x y h hx hy
      · subst h
        have hxy : x = y := by rw [hx] at hy; exact Option.some.inj hy
        subst hxy
        show ((l.set i x).set i x).Perm l
        rw [List.set_set, set_get_self l i x hx]
      · show ((l.set i y).set j x).Perm l
        rw [List.set_comm y x l (show i ≠ j by omega)]
        exact set_set_perm l j i y x h hy hx

/-- The Fisher–Yates loop of shuffle_tabs: at index `i` (counting down
from `length − 1` to 1) swap positions `i` and `j`, where `j` is the
random draw `Math.floor(Math.random() * (i + 1))`, modelled by the oracle
value reduced into the range `[0, i]`. -/
def fyAux (rand : Nat → Nat) : Nat → List Tab → List Tab
  | 0, l => l
  | Nat.succ k, l => fyAux rand k (lswap l (k + 1) (rand (k + 1) % (k + 2)))

/-- The shuffled copy `[...shufflableTabs]` after the Fisher–Yates loop. -/
def fisherYates (rand : Nat → Nat) (l : List Tab) : List Tab :=
  fyAux rand (l.length - 1) l

theorem fyAux_perm (rand : Nat → Nat) : ∀ (n : Nat) (l : List Tab), (fyAux rand n l).Perm l := by
  intro n
  induction n with
  | zero => intro l; exact List.Perm.refl l
  | succ k ih =>
    intro l
    exact (ih (lswap l (k + 1) (rand (k + 1) % (k + 2)))).trans
      (lswap_perm l (k + 1) (rand (k + 1) % (k + 2)))

theorem fisherYates_perm (rand : Nat → Nat) (l : List Tab) : (fisherYates rand l).Perm l :=
  fyAux_perm rand (l.length - 1) l

/-- The tabs shuffle_tabs operates on: not pinned, not internal pages. -/
def shufflableTabs (tabs : List Tab) : List Tab :=
  tabs.filter fun t =>
    !t.pinned && !(jsStartsWith t.url "chrome://") && !(jsStartsWith t.url "chrome-extension://")

/-- Handler of the shuffle_tabs tool. -/
def shuffleTool (tabs : List Tab) (rand : Nat → Nat) : String × List CommandBody :=
  let shufflable := shufflableTabs tabs
  if shufflable.length < 2 then ("Not enough tabs to shuffle.", [])
  else
    let shuffled := fisherYates rand shufflable
    ("Queued " ++ toString shuffled.length ++
       " tabs to be shuffled randomly.\n\nClick \"Execute Commands\" in the browser extension to apply.",
     [CommandBody.shuffleMoves
       (shuffled.enum.map fun p => ⟨p.2.id, p.2.windowId, p.1⟩)
       ("Shuffle " ++ toString shuffled.length ++ " tabs randomly")])

/-- C8: on N ≥ 2 eligible tabs and any random outcome, shuffle_tabs emits
exactly one command with exactly N moves whose indices are 0..N−1 (hence
pairwise distinct and in [0,N)), carrying the id/window pairs of exactly
the eligible tabs; on fewer than 2 eligible tabs it is a no-op. -/
theorem claim8_shuffle (tabs : List Tab) (rand : Nat → Nat) :
    (2 ≤ (shufflableTabs tabs).length →
      ∃ moves d,
        (shuffleTool tabs rand).2 = [CommandBody.shuffleMoves moves d] ∧
        moves.length = (shufflableTabs tabs).length ∧
        moves.map Move.index = List.range (shufflableTabs tabs).length ∧
        (moves.map Move.index).Nodup ∧
        (∀ m ∈ moves, m.index < (shufflableTabs tabs).length) ∧
        (moves.map fun m => (m.tabId, m.windowId)).Perm
          ((shufflableTabs tabs).map fun t => (t.id, t.windowId))) ∧
    ((shufflableTabs tabs).length < 2 →
      shuffleTool tabs rand = ("Not enough tabs to shuffle.", [])) := by
  constructor
  · intro h2
    have hnot : ¬ (shufflableTabs tabs).length < 2 := by omega
    have hperm : (fisherYates rand (shufflableTabs tabs)).Perm (shufflableTabs tabs) :=
      fisherYates_perm rand (shufflableTabs tabs)
    have hlen : (fisherYates rand (shufflableTabs tabs)).length = (shufflableTabs tabs).length :=
      hperm.length_eq
    have htool : (shuffleTool tabs rand).2 =
        [CommandBody.shuffleMoves
          ((fisherYates rand (shufflableTabs tabs)).enum.map fun p => ⟨p.2.id, p.2.windowId, p.1⟩)
          ("Shuffle " ++ toString (fisherYates rand (shufflableTabs tabs)).length ++
            " tabs randomly")] := by
      simp [shuffleTool, hnot]
    have hmaps : (((fisherYates rand (shufflableTabs tabs)).enum.map
        fun p => (⟨p.2.id, p.2.windowId, p.1⟩ : Move)).map Move.index) =
        List.range (shufflableTabs tabs).length := by
      rw [List.map_map]
      have hcomp : (Move.index ∘ fun p : Nat × Tab => (⟨p.2.id, p.2.windowId, p.1⟩ : Move)) =
          Prod.fst := rfl
      rw [hcomp, List.enum_map_fst, hlen]
    refine ⟨_, _, htool, ?_, hmaps, ?_, ?_, ?_⟩
    · simp [hlen]
    · rw [hmaps]
      exact List.nodup_range _
    · intro m hm
      have hmem : m.index ∈ List.range (shufflableTabs tabs).length := by
        rw [← hmaps]
        exact List.mem_map.mpr ⟨m, hm, rfl⟩
      exact List.mem_range.mp hmem
    · rw [List.map_map]
      have hcomp2 : ((fun m : Move => (m.tabId, m.windowId)) ∘
          fun p : Nat × Tab => (⟨p.2.id, p.2.windowId, p.1⟩ : Move)) =
          (fun t : Tab => (t.id, t.windowId)) ∘ Prod.snd := rfl
      rw [hcomp2, ← List.map_map, List.enum_map_snd]
      exact hperm.map _
  · intro h2
    simp only [shuffleTool, if_pos h2]

/-- Two unpinned ordinary tabs, both shuffle-eligible. -/
def tabsC8 : List Tab :=
  [⟨1, 1, 0, "a", "https://a.test/", "a.test", false, false, -1, none, false⟩,
   ⟨2, 1, 1, "b", "https://b.test/", "b.test", false, false, -1, none, false⟩]

theorem claim8_shuffle_witness :
    (∃ moves d,
      (shuffleTool tabsC8 (fun _ => 0)).2 = [CommandBody.shuffleMoves moves d] ∧
      moves.length = (shufflableTabs tabsC8).length ∧
      moves.map Move.index = List.range (shufflableTabs tabsC8).length ∧
      (moves.map Move.index).Nodup ∧
      (∀ m ∈ moves, m.index < (shufflableTabs tabsC8).length) ∧
      (moves.map fun m => (m.tabId, m.windowId)).Perm
        ((shufflableTabs tabsC8).map fun t => (t.id, t.windowId))) ∧
    shuffleTool [] (fun _ => 0) = ("Not enough tabs to shuffle.", []) :=
  ⟨(claim8_shuffle tabsC8 (fun _ => 0)).1 (by decide),
   (claim8_shuffle [] (fun _ => 0)).2 (by decide)⟩

/-- The optional arguments object of a tool call. -/
structure Args where
  domain : Option String
  search : Option String
  hours : Option Nat
  name : Option String
  color : Option String
  urlPattern : Option String
  tabIds : Option (List Nat)
  tabId : Option Nat
  closeDuplicates : Option Bool
  context : Option String
  deriving DecidableEq, Repr

/-- All-absent arguments. -/
def noArgs : Args := ⟨none, none, none, none, none, none, none, none, none, none⟩

/-- JS truthiness of an optional string: present and non-empty. -/
def strTruthy : Option String → Bool
  | some s => !(s == "")
  | none => false

/-- JS `v || d` for an optional string (empty string falls back). -/
def strOrDefault (o : Option String) (d : String) : String :=
  match o with
  | some s => if s = "" then d else s
  | none => d

/-- Stable insertion (descending by count) for the JS
`sort((a, b) => b[1] - a[1])`. -/
def insCnt (x : String × Nat) : List (String × Nat) → List (String × Nat)
  | [] => [x]
  | y :: ys => if x.2 ≤ y.2 then y :: insCnt x ys else x :: y :: ys

/-- Stable descending-by-count sort. -/
def sortByCountDesc (l : List (String × Nat)) : List (String × Nat) :=
  l.foldl (fun acc x => insCnt x acc) []

/-- Stable ascending insertion by last-accessed (unset reads as 0). -/
def insOld (x : Tab) : List Tab → List Tab
  | [] => [x]
  | y :: ys => if (y.lastAccessed.getD 0) ≤ (x.lastAccessed.getD 0) then y :: insOld x ys
      else x :: y :: ys

/-- Stable ascending sort by last-accessed. -/
def sortByLastAccessedAsc (l : List Tab) : List Tab :=
  l.foldl (fun acc x => insOld x acc) []

/-- Stable descending insertion by last-accessed (unset reads as 0). -/
def insLA (x : Tab) : List Tab → List Tab
  | [] => [x]
  | y :: ys => if (x.lastAccessed.getD 0) ≤ (y.lastAccessed.getD 0) then y :: insLA x ys
      else x :: y :: ys

/-- Stable descending sort by last-accessed. -/
def sortByLastAccessedDesc (l : List Tab) : List Tab :=
  l.foldl (fun acc x => insLA x acc) []

/-- Count occurrences per key in first-occurrence order (plain-object
counter maps). -/
def upsertCount : List (String × Nat) → String → List (String × Nat)
  | [], k => [(k, 1)]
  | p :: rest, k => if p.1 = k then (p.1, p.2 + 1) :: rest else p :: upsertCount rest k

/-- The `domainCounts` / `urlCounts` counter object. -/
def countByKey (keys : List String) : List (String × Nat) :=
  keys.foldl upsertCount []

/-- Group tabs per URL in first-occurrence order (find_duplicate_tabs). -/
def upsertGroup : List (String × List Tab) → Tab → List (String × List Tab)
  | [], t => [(t.url, [t])]
  | p :: rest, t => if p.1 = t.url then (p.1, p.2 ++ [t]) :: rest else p :: upsertGroup rest t

/-- The `urlCounts` object of find_duplicate_tabs. -/
def groupByUrl (tabs : List Tab) : List (String × List Tab) :=
  tabs.foldl upsertGroup []

/-- The list_tabs filters: optional domain filter (argument lower-cased,
tab domain raw) then optional search filter (both sides lower-cased). -/
def listTabsFiltered (tabs : List Tab) (args : Args) : List Tab :=
  let f1 := if strTruthy args.domain then
      tabs.filter fun t => jsIncludes t.domain (jsToLower (args.domain.getD ""))
    else tabs
  if strTruthy args.search then
    f1.filter fun t =>
      jsIncludes (jsToLower t.title) (jsToLower (args.search.getD "")) ||
      jsIncludes (jsToLower t.url) (jsToLower (args.search.getD ""))
  else f1

/-- The list_tabs reply text. -/
def listTabsTool (tabs : List Tab) (args : Args) (now ts : Nat) : String :=
  let filtered := listTabsFiltered tabs args
  let output := String.intercalate "\n\n" (filtered.enum.map fun p =>
    toString (p.1 + 1) ++ ". " ++ p.2.title ++ "\n   " ++ p.2.url ++ "\n   [" ++
      p.2.domain ++ "] " ++ (if p.2.pinned then "📌" else "") ++ " " ++
      (if p.2.audible then "🔊" else ""))
  "Found " ++ toString filtered.length ++ " tabs (data from " ++ formatAge now ts ++
    "):\n\n" ++ output

/-- The group_tabs_by_domain reply text. -/
def groupTabsByDomainTool (tabs : List Tab) : String :=
  let counts := countByKey (tabs.map Tab.domain)
  let sorted := sortByCountDesc counts
  "Tabs grouped by domain (" ++ toString counts.length ++ " unique domains):\n\n" ++
    String.intercalate "\n"
      (sorted.map fun p => p.1 ++ ": " ++ toString p.2 ++ " tab" ++ (if 1 < p.2 then "s" else ""))

/-- The find_duplicate_tabs reply text. -/
def findDuplicateTabsTool (tabs : List Tab) : String :=
  let dups := (groupByUrl tabs).filter fun p => 1 < p.2.length
  if dups.isEmpty then "No duplicate tabs found!"
  else
    "Found duplicate tabs:\n\n" ++ String.intercalate "\n\n" (dups.map fun p =>
      toString p.2.length ++ "x: " ++ ((p.2.head?.map Tab.title).getD "") ++ "\n   " ++ p.1)

/-- The staleness threshold: `args?.hours || 24` (0 is falsy). -/
def oldHours (args : Args) : Nat :=
  match args.hours with
  | some h => if h = 0 then 24 else h
  | none => 24

/-- The old-tab filter: last-accessed set (truthy) and before the cutoff. -/
def oldTabs (tabs : List Tab) (now : Nat) (hours : Nat) : List Tab :=
  tabs.filter fun t =>
    match t.lastAccessed with
    | some v => decide (v ≠ 0) && decide ((v : Int) < (now : Int) - (hours : Int) * 3600000)
    | none => false

/-- The find_old_tabs reply text. -/
def findOldTabsTool (tabs : List Tab) (args : Args) (now : Nat) : String :=
  let hours := oldHours args
  let old := sortByLastAccessedAsc (oldTabs tabs now hours)
  if old.length = 0 then "No tabs older than " ++ toString hours ++ " hours found."
  else
    "Found " ++ toString old.length ++ " tabs not accessed in " ++ toString hours ++
      "+ hours:\n\n" ++ String.intercalate "\n\n" (old.map fun t =>
        t.title ++ "\n   " ++ t.domain ++ " - last accessed " ++
          formatAge now (t.lastAccessed.getD 0))

/-- Partition by first matching analysis category, in first-assignment
order, with uncategorized tabs collected separately. -/
def upsertCat : List (String × List Tab) → String → Tab → List (String × List Tab)
  | [], n, t => [(n, [t])]
  | p :: rest, n, t => if p.1 = n then (p.1, p.2 ++ [t]) :: rest else p :: upsertCat rest n t

/-- The `categorized` object and `uncategorized` list of
find_tabs_by_category. -/
def analysisPartition (tabs : List Tab) : List (String × List Tab) × List Tab :=
  tabs.foldl (fun acc t =>
    match analysisClassify t with
    | some c => (upsertCat acc.1 c.1 t, acc.2)
    | none => (acc.1, acc.2 ++ [t])) ([], [])

/-- The find_tabs_by_category reply text. -/
def findTabsByCategoryTool (tabs : List Tab) : String :=
  let part := analysisPartition tabs
  let catText := String.join (part.1.map fun p =>
    "\n" ++ p.1 ++ " (" ++ toString p.2.length ++ "):\n" ++
      String.join (p.2.map fun t => "  - " ++ t.title ++ "\n"))
  let otherText :=
    if 0 < part.2.length then
      "\nOther (" ++ toString part.2.length ++ "):\n" ++
        String.join ((part.2.take 10).map fun t => "  - " ++ t.title ++ " [" ++ t.domain ++ "]\n") ++
        (if 10 < part.2.length then "  ... and " ++ toString (part.2.length - 10) ++ " more\n"
         else "")
    else ""
  "Tabs by category:" ++ catText ++ otherText

/-- The suggest_tab_organization reply text. -/
def suggestOrgTool (tabs : List Tab) (tabCount : Nat) (now : Nat) : String :=
  let urlCounts := countByKey (tabs.map Tab.url)
  let dupEntries := urlCounts.filter fun p => 1 < p.2
  let duplicateCount := (dupEntries.map fun p => p.2).sum - dupEntries.length
  let s1 := if 0 < duplicateCount then
      ["Close " ++ toString duplicateCount ++ " duplicate tabs"] else []
  let clusters := (countByKey (tabs.map Tab.domain)).filter fun p => 5 ≤ p.2
  let s2 := clusters.map fun p => "Group " ++ toString p.2 ++ " tabs from " ++ p.1 ++ " together"
  let s3 := if 50 < tabCount then
      ["Consider closing some tabs - " ++ toString tabCount ++ " is a lot!"] else []
  let oldCount := (oldTabs tabs now 24).length
  let s4 := if 5 < oldCount then
      ["Review " ++ toString oldCount ++ " tabs not accessed in 24+ hours"] else []
  let suggestions := s1 ++ s2 ++ s3 ++ s4
  if 0 < suggestions.length then
    "Suggestions for organizing your " ++ toString tabCount ++ " tabs:\n\n" ++
      String.intercalate "\n" (suggestions.enum.map fun p =>
        toString (p.1 + 1) ++ ". " ++ p.2)
  else "Your tabs look pretty well organized!"

/-- The fixed context-keyword map of suggest_focus_tabs; an unknown
context is used verbatim as a single keyword. -/
def contextKeywords (context : String) : List String :=
  if context = "coding" ∨ context = "code" then
    ["github", "stackoverflow", "docs", "localhost", "npm", "developer"]
  else if context = "research" then
    ["scholar", "arxiv", "wikipedia", "paper", "research", "docs"]
  else if context = "email" ∨ context = "emails" then
    ["mail", "outlook", "gmail", "inbox"]
  else if context = "work" then
    ["jira", "confluence", "slack", "teams", "notion", "docs.google", "drive"]
  else if context = "meeting" ∨ context = "meetings" then
    ["zoom", "meet.google", "teams", "calendar"]
  else [context]

/-- The suggest_focus_tabs reply text. -/
def suggestFocusTool (tabs : List Tab) (args : Args) : String :=
  let context := jsToLower (args.context.getD "")
  let relevant := if context ≠ "" then
      tabs.filter fun t => (contextKeywords context).any fun k =>
        jsIncludes t.domain k || jsIncludes (jsToLower t.title) k ||
          jsIncludes (jsToLower t.url) k
    else tabs
  let top := (sortByLastAccessedDesc relevant).take 5
  if top.length = 0 then
    if context ≠ "" then
      "No tabs found related to \"" ++ context ++
        "\". Try a different context or sync your tabs again."
    else "Sync your tabs first to get focus suggestions."
  else
    let output := String.intercalate "\n\n" (top.enum.map fun p =>
      toString (p.1 + 1) ++ ". " ++ p.2.title ++ "\n   " ++ p.2.url)
    if context ≠ "" then "Top tabs for \"" ++ context ++ "\":\n\n" ++ output
    else "Your most recently accessed tabs:\n\n" ++ output

/-- The close_tabs target selection: explicit non-empty id list first,
then domain, then URL pattern, else nothing. -/
def closeTabsTarget (tabs : List Tab) (args : Args) : List Tab :=
  if (match args.tabIds with | some ids => decide (0 < ids.length) | none => false) then
    tabs.filter fun t => (args.tabIds.getD []).contains t.id
  else if strTruthy args.domain then
    tabs.filter fun t => jsIncludes t.domain (jsToLower (args.domain.getD ""))
  else if strTruthy args.urlPattern then
    tabs.filter fun t => jsIncludes (jsToLower t.url) (jsToLower (args.urlPattern.getD ""))
  else []

/-- Handler of the close_tabs tool. -/
def closeTabsTool (tabs : List Tab) (args : Args) : String × List CommandBody :=
  let tabsToClose := closeTabsTarget tabs args
  if tabsToClose.length = 0 then ("No matching tabs found to close.", [])
  else
    ("Queued " ++ toString tabsToClose.length ++ " tabs for closing:\n" ++
       String.intercalate "\n" (tabsToClose.map fun t => "- " ++ t.title) ++
       "\n\nClick \"Execute Commands\" in the browser extension to apply.",
     [CommandBody.closeTabs (tabsToClose.map Tab.id)
       ("Close " ++ toString tabsToClose.length ++ " tabs")])

/-- Handler of the create_tab_group tool. -/
def createTabGroupTool (tabs : List Tab) (args : Args) : String × List CommandBody :=
  if !(strTruthy args.name) || !(strTruthy args.domain) then
    ("Please provide both name and domain for the tab group.", [])
  else
    let matching := tabs.filter fun t => jsIncludes t.domain (jsToLower (args.domain.getD ""))
    if matching.length = 0 then
      ("No tabs found matching domain \"" ++ args.domain.getD "" ++ "\"", [])
    else
      ("Queued " ++ toString matching.length ++ " tabs to be grouped as \"" ++
         args.name.getD "" ++ "\":\n" ++
         String.intercalate "\n" (matching.map fun t => "- " ++ t.title) ++
         "\n\nClick \"Execute Commands\" in the browser extension to apply.",
       [CommandBody.createGroup (matching.map Tab.id) (args.name.getD "")
         (strOrDefault args.color "blue")
         ("Group " ++ toString matching.length ++ " tabs as \"" ++ args.name.getD "" ++ "\"")])

/-- The focus_tab target: by truthy id first, else by first title/URL
match of a truthy search string. -/
def focusTabTarget (tabs : List Tab) (args : Args) : Option Tab :=
  if (match args.tabId with | some i => decide (i ≠ 0) | none => false) then
    tabs.find? fun t => decide (t.id = args.tabId.getD 0)
  else if strTruthy args.search then
    tabs.find? fun t =>
      jsIncludes (jsToLower t.title) (jsToLower (args.search.getD "")) ||
      jsIncludes (jsToLower t.url) (jsToLower (args.search.getD ""))
  else none

/-- Handler of the focus_tab tool. -/
def focusTabTool (tabs : List Tab) (args : Args) : String × List CommandBody :=
  match focusTabTarget tabs args with
  | none => ("Tab not found.", [])
  | some t =>
    ("Queued focus on: " ++ t.title ++
       "\n\nClick \"Execute Commands\" in the browser extension to apply.",
     [CommandBody.focusTab t.id t.windowId ("Focus: " ++ t.title)])

/-- The advisory returned whenever no snapshot file exists. -/
def noDataText : String :=
  "No tab data found. Please click the \"Sync Tabs to Claude\" button in the browser extension first."

/-- The tool dispatch (the `switch (name)` of the call handler), given a
loaded snapshot. -/
def dispatchTool (snap : Snapshot) (name : String) (args : Args) (now : Nat)
    (rand : Nat → Nat) : String × List CommandBody :=
  if name = "list_tabs" then (listTabsTool snap.tabs args now snap.timestamp, [])
  else if name = "group_tabs_by_domain" then (groupTabsByDomainTool snap.tabs, [])
  else if name = "find_duplicate_tabs" then (findDuplicateTabsTool snap.tabs, [])
  else if name = "find_old_tabs" then (findOldTabsTool snap.tabs args now, [])
  else if name = "get_tab_stats" then getTabStatsTool snap now
  else if name = "find_tabs_by_category" then (findTabsByCategoryTool snap.tabs, [])
  else if name = "suggest_tab_organization" then
    (suggestOrgTool snap.tabs snap.tabCount now, [])
  else if name = "suggest_focus_tabs" then (suggestFocusTool snap.tabs args, [])
  else if name = "close_tabs" then closeTabsTool snap.tabs args
  else if name = "close_duplicate_tabs" then closeDuplicateTabsTool snap.tabs
  else if name = "create_tab_group" then createTabGroupTool snap.tabs args
  else if name = "focus_tab" then focusTabTool snap.tabs args
  else if name = "auto_organize_tabs" then
    autoOrganizeTool snap.tabs (args.closeDuplicates.getD false)
  else if name = "ungroup_all_tabs" then ungroupAllTabsTool snap.tabs snap.groups
  else if name = "shuffle_tabs" then shuffleTool snap.tabs rand
  else ("Unknown tool: " ++ name, [])

/-- The whole call handler: a missing snapshot short-circuits to the
no-data advisory before any dispatch. -/
def handleToolCall (data : Option Snapshot) (name : String) (args : Args) (now : Nat)
    (rand : Nat → Nat) : String × List CommandBody :=
  match data with
  | none => (noDataText, [])
  | some snap => dispatchTool snap name args now rand

/-- C6: every mutating planner operation whose computed target set is
empty returns its "nothing to do" text and appends no command. For
auto_organize_tabs the target set is the union of the marked duplicates
and the bucketed tabs, both empty here. -/
theorem claim6_empty_target_noop :
    (∀ (tabs : List Tab) (args : Args), closeTabsTarget tabs args = [] →
      closeTabsTool tabs args = ("No matching tabs found to close.", [])) ∧
    (∀ tabs : List Tab, closeDupIds tabs = [] →
      closeDuplicateTabsTool tabs = ("No duplicate tabs found!", [])) ∧
    (∀ (tabs : List Tab) (args : Args),
      (!(strTruthy args.name) || !(strTruthy args.domain)) = false →
      tabs.filter (fun t => jsIncludes t.domain (jsToLower (args.domain.getD ""))) = [] →
      createTabGroupTool tabs args =
        ("No tabs found matching domain \"" ++ args.domain.getD "" ++ "\"", [])) ∧
    (∀ (tabs : List Tab) (args : Args), focusTabTarget tabs args = none →
      focusTabTool tabs args = ("Tab not found.", [])) ∧
    (∀ (tabs : List Tab) (flag : Bool), autoDupIds tabs flag = [] →
      autoBuckets tabs flag = [] →
      autoOrganizeTool tabs flag =
        ("No tabs to organize (all tabs are pinned or extension pages).", [])) ∧
    (∀ (tabs : List Tab) (groups : List TabGroup), groupedTabs tabs = [] →
      ungroupAllTabsTool tabs groups = ("No tabs are currently in groups.", [])) ∧
    (∀ (tabs : List Tab) (rand : Nat → Nat), shufflableTabs tabs = [] →
      shuffleTool tabs rand = ("Not enough tabs to shuffle.", [])) := by
  refine ⟨?_, ?_, ?_, ?_, ?_, ?_, ?_⟩
  · intro tabs args h
    simp [closeTabsTool, h]
  · intro tabs h
    simp [closeDuplicateTabsTool, h]
  · intro tabs args hg hmatch
    simp [createTabGroupTool, hg, hmatch]
  · intro tabs args h
    simp [focusTabTool, h]
  · intro tabs flag h1 h2
    simp [autoOrganizeTool, autoGroupCommands, autoCloseCommands, h1, h2]
  · intro tabs groups h
    simp [ungroupAllTabsTool, h]
  · intro tabs rand h
    simp [shuffleTool, h]

/-- Arguments with a name and a domain matching nothing. -/
def argsCG : Args :=
  ⟨some "nosuch.test", none, none, some "G", none, none, none, none, none, none⟩

theorem claim6_empty_target_noop_witness :
    closeTabsTool [] noArgs = ("No matching tabs found to close.", []) ∧
    closeDuplicateTabsTool [] = ("No duplicate tabs found!", []) ∧
    createTabGroupTool [] argsCG = ("No tabs found matching domain \"nosuch.test\"", []) ∧
    focusTabTool [] noArgs = ("Tab not found.", []) ∧
    autoOrganizeTool [] false =
      ("No tabs to organize (all tabs are pinned or extension pages).", []) ∧
    ungroupAllTabsTool [] [] = ("No tabs are currently in groups.", []) ∧
    shuffleTool [] (fun _ => 0) = ("Not enough tabs to shuffle.", []) := by
  have h := claim6_empty_target_noop
  refine ⟨h.1 [] noArgs (by decide), h.2.1 [] (by decide), ?_,
    h.2.2.2.1 [] noArgs (by decide), h.2.2.2.2.1 [] false (by decide) (by decide),
    h.2.2.2.2.2.1 [] [] (by decide), h.2.2.2.2.2.2 [] (fun _ => 0) (by decide)⟩
  exact h.2.2.1 [] argsCG (by decide) (by decide)

theorem ne_of_take_ne (a b : String) (n : Nat) (h : a.data.take n ≠ b.data.take n) :
    a ≠ b :=
  fun e => h (by rw [e])

theorem listTabsFiltered_nil (args : Args) : listTabsFiltered [] args = [] := by
  simp [listTabsFiltered]

theorem closeTabsTarget_nil (args : Args) : closeTabsTarget [] args = [] := by
  simp [closeTabsTarget]

theorem focusTabTarget_nil (args : Args) : focusTabTarget [] args = none := by
  simp [focusTabTarget]

/-- C7: with no snapshot structure present every tool call returns the
no-data advisory (and writes no command); with a present snapshot whose
tab list is empty, no tool call ever returns that advisory text, so the
missing-snapshot condition is reported distinctly from an empty tab
list. -/
theorem claim7_missing_snapshot :
    (∀ (name : String) (args : Args) (now : Nat) (rand : Nat → Nat),
      handleToolCall none name args now rand = (noDataText, [])) ∧
    (∀ (snap : Snapshot) (name : String) (args : Args) (now : Nat) (rand : Nat → Nat),
      snap.tabs = [] →
      (handleToolCall (some snap) name args now rand).1 ≠ noDataText) := by
  constructor
  · intro name args now rand
    rfl
  · intro snap name args now rand htabs
    show (dispatchTool snap name args now rand).1 ≠ noDataText
    by_cases h1 : name = "list_tabs"
    · subst h1
      have hx : (dispatchTool snap "list_tabs" args now rand).1 =
          listTabsTool snap.tabs args now snap.timestamp := by simp [dispatchTool]
      rw [hx, htabs]
      simp only [listTabsTool, listTabsFiltered_nil]
      simp only [String.append_assoc]
      apply ne_of_take_ne _ _ 6
      rw [String.data_append, List.take_append_of_le_length (by decide)]
      decide
    by_cases h2 : name = "group_tabs_by_domain"
    · subst h2
      have hx : (dispatchTool snap "group_tabs_by_domain" args now rand).1 =
          groupTabsByDomainTool snap.tabs := by simp [dispatchTool, h1]
      rw [hx, htabs]
      simp only [groupTabsByDomainTool]
      simp only [String.append_assoc]
      apply ne_of_take_ne _ _ 24
      rw [String.data_append, List.take_append_of_le_length (by decide)]
      decide
    by_cases h3 : name = "find_duplicate_tabs"
    · subst h3
      have hx : (dispatchTool snap "find_duplicate_tabs" args now rand).1 =
          findDuplicateTabsTool snap.tabs := by simp [dispatchTool, h1, h2]
      rw [hx, htabs]
      simp only [findDuplicateTabsTool, groupByUrl]
      decide
    by_cases h4 : name = "find_old_tabs"
    · subst h4
      have hx : (dispatchTool snap "find_old_tabs" args now rand).1 =
          findOldTabsTool snap.tabs args now := by simp [dispatchTool, h1, h2, h3]
      rw [hx, htabs]
      simp only [findOldTabsTool, oldTabs, sortByLastAccessedAsc]
      simp only [List.filter_nil, List.foldl_nil, List.length_nil, eq_self_iff_true, if_true]
      simp only [String.append_assoc]
      apply ne_of_take_ne _ _ 19
      rw [String.data_append, List.take_append_of_le_length (by decide)]
      decide
    by_cases h5 : name = "get_tab_stats"
    · subst h5
      have hx : (dispatchTool snap "get_tab_stats" args now rand).1 =
          (getTabStatsTool snap now).1 := by simp [dispatchTool, h1, h2, h3, h4]
      rw [hx]
      simp only [getTabStatsTool]
      simp only [String.append_assoc]
      apply ne_of_take_ne _ _ 26
      rw [String.data_append, List.take_append_of_le_length (by decide)]
      decide
    by_cases h6 : name = "find_tabs_by_category"
    · subst h6
      have hx : (dispatchTool snap "find_tabs_by_category" args now rand).1 =
          findTabsByCategoryTool snap.tabs := by simp [dispatchTool, h1, h2, h3, h4, h5]
      rw [hx, htabs]
      simp only [findTabsByCategoryTool, analysisPartition]
      simp only [List.foldl_nil, List.map_nil, List.length_nil, String.append_assoc]
      apply ne_of_take_ne _ _ 17
      rw [String.data_append, List.take_append_of_le_length (by decide)]
      decide
    by_cases h7 : name = "suggest_tab_organization"
    · subst h7
      have hx : (dispatchTool snap "suggest_tab_organization" args now rand).1 =
          suggestOrgTool snap.tabs snap.tabCount now := by
        simp [dispatchTool, h1, h2, h3, h4, h5, h6]
      rw [hx, htabs]
      by_cases htc : 50 < snap.tabCount
      · simp [suggestOrgTool, countByKey, oldTabs, htc]
        simp only [String.append_assoc]
        apply ne_of_take_ne _ _ 32
        rw [String.data_append, List.take_append_of_le_length (by decide)]
        decide
      · simp [suggestOrgTool, countByKey, oldTabs, htc]
        decide
    by_cases h8 : name = "suggest_focus_tabs"
    · subst h8
      have hx : (dispatchTool snap "suggest_focus_tabs" args now rand).1 =
          suggestFocusTool snap.tabs args := by
        simp [dispatchTool, h1, h2, h3, h4, h5, h6, h7]
      rw [hx, htabs]
      by_cases hctx : jsToLower (args.context.getD "") = ""
      · simp only [suggestFocusTool, hctx, sortByLastAccessedDesc]
        simp only [List.filter_nil, List.foldl_nil, List.take_nil, List.length_nil]
        simp only [ne_eq, eq_self_iff_true, not_true_eq_false, if_false, if_true]
        decide
      · simp only [suggestFocusTool, sortByLastAccessedDesc, ne_eq, hctx,
          not_false_eq_true, if_true, List.filter_nil, List.foldl_nil, List.take_nil,
          List.length_nil, eq_self_iff_true]
        simp only [String.append_assoc]
        apply ne_of_take_ne _ _ 26
        rw [String.data_append, List.take_append_of_le_length (by decide)]
        decide
    by_cases h9 : name = "close_tabs"
    · subst h9
      have hx : (dispatchTool snap "close_tabs" args now rand).1 =
          (closeTabsTool snap.tabs args).1 := by
        simp [dispatchTool, h1, h2, h3, h4, h5, h6, h7, h8]
      rw [hx, htabs]
      simp only [closeTabsTool, closeTabsTarget_nil]
      decide
    by_cases h10 : name = "close_duplicate_tabs"
    · subst h10
      have hx : (dispatchTool snap "close_duplicate_tabs" args now rand).1 =
          (closeDuplicateTabsTool snap.tabs).1 := by
        simp [dispatchTool, h1, h2, h3, h4, h5, h6, h7, h8, h9]
      rw [hx, htabs]
      simp only [closeDuplicateTabsTool, closeDupIds, dupIdsAux]
      decide
    by_cases h11 : name = "create_tab_group"
    · subst h11
      have hx : (dispatchTool snap "create_tab_group" args now rand).1 =
          (createTabGroupTool snap.tabs args).1 := by
        simp [dispatchTool, h1, h2, h3, h4, h5, h6, h7, h8, h9, h10]
      rw [hx, htabs]
      by_cases hg : (!(strTruthy args.name) || !(strTruthy args.domain)) = true
      · simp only [createTabGroupTool, hg, eq_self_iff_true, if_true]
        decide
      · simp only [createTabGroupTool, Bool.not_eq_true] at hg ⊢
        simp only [hg, Bool.false_eq_true, if_false, List.filter_nil, List.length_nil,
          eq_self_iff_true, if_true]
        simp only [String.append_assoc]
        apply ne_of_take_ne _ _ 31
        rw [String.data_append, List.take_append_of_le_length (by decide)]
        decide
    by_cases h12 : name = "focus_tab"
    · subst h12
      have hx : (dispatchTool snap "focus_tab" args now rand).1 =
          (focusTabTool snap.tabs args).1 := by
        simp [dispatchTool, h1, h2, h3, h4, h5, h6, h7, h8, h9, h10, h11]
      rw [hx, htabs]
      simp only [focusTabTool, focusTabTarget_nil]
      decide
    by_cases h13 : name = "auto_organize_tabs"
    · subst h13
      have hx : (dispatchTool snap "auto_organize_tabs" args now rand).1 =
          (autoOrganizeTool snap.tabs (args.closeDuplicates.getD false)).1 := by
        simp [dispatchTool, h1, h2, h3, h4, h5, h6, h7, h8, h9, h10, h11, h12]
      rw [hx, htabs]
      simp only [autoOrganizeTool, autoGroupCommands, autoCloseCommands, autoBuckets,
        autoTabsToProcess, autoDupIds, closeDupIds, dupIdsAux, categorizeTabs]
      simp only [List.filter_nil, List.foldl_nil, List.map_nil, List.length_nil,
        ite_self, List.filter_nil]
      simp
      decide
    by_cases h14 : name = "ungroup_all_tabs"
    · subst h14
      have hx : (dispatchTool snap "ungroup_all_tabs" args now rand).1 =
          (ungroupAllTabsTool snap.tabs snap.groups).1 := by
        simp [dispatchTool, h1, h2, h3, h4, h5, h6, h7, h8, h9, h10, h11, h12, h13]
      rw [hx, htabs]
      simp only [groupedTabs, ungroupAllTabsTool, List.filter_nil, List.length_nil,
        eq_self_iff_true, if_true]
      decide
    by_cases h15 : name = "shuffle_tabs"
    · subst h15
      have hx : (dispatchTool snap "shuffle_tabs" args now rand).1 =
          (shuffleTool snap.tabs rand).1 := by
        simp [dispatchTool, h1, h2, h3, h4, h5, h6, h7, h8, h9, h10, h11, h12, h13, h14]
      rw [hx, htabs]
      simp only [shufflableTabs, shuffleTool, List.filter_nil, List.length_nil]
      simp
      decide
    · have hx : (dispatchTool snap name args now rand).1 = "Unknown tool: " ++ name := by
        simp [dispatchTool, h1, h2, h3, h4, h5, h6, h7, h8, h9, h10, h11, h12, h13, h14, h15]
      rw [hx]
      apply ne_of_take_ne _ _ 14
      rw [String.data_append, List.take_append_of_le_length (by decide)]
      decide

/-- The snapshot with an empty tab list. -/
def emptySnap : Snapshot := ⟨0, 0, 0, [], []⟩

theorem claim7_missing_snapshot_witness :
    handleToolCall none "list_tabs" noArgs 0 (fun _ => 0) = (noDataText, []) ∧
    (handleToolCall (some emptySnap) "list_tabs" noArgs 0 (fun _ => 0)).1 ≠ noDataText :=
  ⟨claim7_missing_snapshot.1 "list_tabs" noArgs 0 (fun _ => 0),
   claim7_missing_snapshot.2 emptySnap "list_tabs" noArgs 0 (fun _ => 0) rfl⟩

end TabsMcp
